import Mathlib

/-!
Shallow embedding of the relationship-driven query/update engine of
`src/app.py` (nlp-psql-completion): the relationship schema data model,
`serialize`, `map_fields_to_columns`, `construct_query`, `process_message`,
`update_database`, `map_corrections_using_gpt`, `generate_response` and the
`/message` route handler, together with theorems settling the frozen claims.

Python dictionaries are embedded as ordered association lists with
insert-or-replace assignment (`setKV`), matching Python dict semantics
(insertion order preserved, assignment to an existing key keeps its
position).  Python values (strings, ints, bools, floats, Decimals,
datetimes, None / SQL NULL) are the inductive `Value`; a temporal value
carries its ISO-8601 rendering as payload, so `isoformat()` is payload
projection.  The database boundary (SQLAlchemy session) is an explicit
state: a committed and a pending store plus the trace of executed
statements; a statement on a table listed in `failing` raises the embedded
SQLAlchemyError.  Python exceptions that the code does not catch
(KeyError, UnboundLocalError/NameError, RecursionError) are `Except`
errors; recursion depth is an explicit fuel, standing for CPython's
recursion limit.
-/

set_option linter.unusedVariables false

namespace NlpPsql

/-- A Python / SQL scalar value.  `vDatetime` covers datetime, date and time
objects, carrying the text `isoformat()` would produce. -/
inductive Value where
  | vNull
  | vBool (b : Bool)
  | vInt (n : Int)
  | vFloat (q : Rat)
  | vStr (s : String)
  | vDatetime (iso : String)
  | vDecimal (q : Rat)
deriving DecidableEq, Repr

/-- Lookup in an ordered association list: the embedding of Python dict
indexing / `in` (first, hence unique, binding of the key). -/
def lookupKV {α : Type} : List (String × α) → String → Option α
  | [], _ => none
  | (k2, v) :: rest, k => if k2 = k then some v else lookupKV rest k

/-- Python dict assignment `d[k] = v`: replace in place if the key exists,
otherwise append, preserving insertion order. -/
def setKV {α : Type} : List (String × α) → String → α → List (String × α)
  | [], k, v => [(k, v)]
  | (k2, v2) :: rest, k, v =>
      if k2 = k then (k2, v) :: rest else (k2, v2) :: setKV rest k v

/-- Python `k in d`. -/
def hasKey {α : Type} (m : List (String × α)) (k : String) : Bool :=
  (lookupKV m k).isSome

/-- A database row / JSON object / materialized record: ordered mapping from
string key to scalar value. -/
abbrev RowMap := List (String × Value)

/-- `str.split(sep)` on a single-character separator, as Python computes it
(an empty string yields one empty piece). -/
def splitCharAux (sep : Char) : List Char → List Char → List (List Char)
  | [], cur => [cur.reverse]
  | c :: cs, cur =>
      if c = sep then cur.reverse :: splitCharAux sep cs []
      else splitCharAux sep cs (c :: cur)

/-- `s.split(sep)` for one-character `sep`. -/
def pySplit (sep : Char) (s : String) : List String :=
  (splitCharAux sep s.data []).map (fun cs => String.mk cs)

/-- `s.split('.')[i]` with an out-of-range default (call sites in the source
always have enough components). -/
def dotPart (s : String) (i : Nat) : String :=
  (pySplit '.' s).getD i ""

/-- `s.split('.')[-1]`, the last dot-separated component. -/
def lastPart (s : String) : String :=
  (pySplit '.' s).getLastD ""

/-- `sep.join(xs)`. -/
def joinSep (sep : String) : List String → String
  | [] => ""
  | [x] => x
  | x :: y :: rest => x ++ sep ++ joinSep sep (y :: rest)

/-- A Scalar Field Descriptor `{"alias": external_name}`. -/
structure FieldInfo where
  fieldAlias : String
deriving DecidableEq, Repr

/-- A Link Descriptor `{"ref": "schema.table.column", "fields": {...}}`. -/
structure LinkInfo where
  ref : String
  fields : List (String × FieldInfo)
deriving DecidableEq, Repr

/-- One entry of a table's relationship map: either a directly exposed
column or a foreign-key link (the two shapes the config distinguishes by
the presence of the `ref` key). -/
inductive Descriptor where
  | scalar (fi : FieldInfo)
  | link (li : LinkInfo)
deriving DecidableEq, Repr

/-- The relationship map of one table: local column name to descriptor. -/
abbrev Rels := List (String × Descriptor)

/-- `RELATIONSHIPS`: qualified table name to relationship map. -/
abbrev Schema := List (String × Rels)

/-- `RELATIONSHIPS[t]` (call sites guard or assume presence). -/
def findRels (R : Schema) (t : String) : Rels :=
  (lookupKV R t).getD []

/-- `ref_table_info['ref']` as the code performs it in `update_database`
line 153: unconditional dict access, a KeyError on a scalar descriptor. -/
def getRef : Descriptor → Except String String
  | .scalar _ => .error "ref"
  | .link li => .ok li.ref

/-- `serialize` (src/app.py lines 38-43): temporal values to their ISO-8601
text, Decimal to float, everything else unchanged. -/
def serialize : Value → Value
  | .vDatetime iso => .vStr iso
  | .vDecimal q => .vFloat q
  | v => v

/-- The per-entry bucket `map_fields_to_columns` fills (lines 52-61): for a
scalar descriptor, the value of the alias key of the record, stored under
the alias; for a link descriptor, each field whose alias the record holds,
stored under the field name. -/
def bucketFor (record : RowMap) : Descriptor → RowMap
  | .scalar fi =>
      match lookupKV record fi.fieldAlias with
      | some v => setKV [] fi.fieldAlias v
      | none => []
  | .link li =>
      li.fields.foldl
        (fun b p =>
          match lookupKV record p.2.fieldAlias with
          | some v => setKV b p.1 v
          | none => b)
        []

/-- `map_fields_to_columns` (lines 45-64): one bucket per relationship
entry, keyed by the entry's local column name. -/
def map_fields_to_columns (record : RowMap) (relationships : Rels) :
    List (String × RowMap) :=
  relationships.foldl (fun mapped p => setKV mapped p.1 (bucketFor record p.2)) []

/-- The SELECT-list loop of `construct_query` (lines 71-84): scalar entries
produce `schema.table.column AS "alias"`; link entries mint the join alias
`<ref_table>_alias_<n>` (counter over links only) and expose each linked
field under its alias. -/
def selectColsAux (schemaName tname : String) : Rels → Nat → List String
  | [], _ => []
  | (column, .link li) :: rest, k =>
      let rt := dotPart li.ref 1
      let refAlias := rt ++ "_alias_" ++ toString k
      (li.fields.map (fun p => refAlias ++ "." ++ p.1 ++ " AS \"" ++ p.2.fieldAlias ++ "\""))
        ++ selectColsAux schemaName tname rest (k + 1)
  | (column, .scalar fi) :: rest, k =>
      (schemaName ++ "." ++ tname ++ "." ++ column ++ " AS \"" ++ fi.fieldAlias ++ "\"")
        :: selectColsAux schemaName tname rest k

/-- The JOIN loop of `construct_query` (lines 88-95): one LEFT JOIN per link
entry, with the alias counter reset to 1 and again incremented over links
only. -/
def joinClausesAux (schemaName tname : String) : Rels → Nat → List String
  | [], _ => []
  | (column, .link li) :: rest, k =>
      let rs := dotPart li.ref 0
      let rt := dotPart li.ref 1
      let rc := dotPart li.ref 2
      let refAlias := rt ++ "_alias_" ++ toString k
      ("LEFT JOIN " ++ rs ++ "." ++ rt ++ " AS " ++ refAlias ++ " ON "
          ++ schemaName ++ "." ++ tname ++ "." ++ column ++ " = " ++ refAlias ++ "." ++ rc)
        :: joinClausesAux schemaName tname rest (k + 1)
  | (_, .scalar _) :: rest, k => joinClausesAux schemaName tname rest k

/-- `construct_query` (lines 66-105): SELECT list, FROM, LEFT JOINs when any,
then `WHERE <schema>.<table>.<id_name last component> = :id_value`.  The
`id_value` argument is logged only and never enters the text. -/
def construct_query (R : Schema) (table id_name : String) (id_value : Value) : String :=
  let schemaName := dotPart table 0
  let tname := dotPart table 1
  let rels := findRels R table
  let columns := selectColsAux schemaName tname rels 1
  let q1 := "SELECT " ++ joinSep ", " columns ++ " FROM " ++ schemaName ++ "." ++ tname
  let joins := joinClausesAux schemaName tname rels 1
  let q2 := if joins.isEmpty then q1 else q1 ++ " " ++ joinSep " " joins
  let columnName := lastPart id_name
  q2 ++ " WHERE " ++ schemaName ++ "." ++ tname ++ "." ++ columnName ++ " = :id_value"

/-- One executed SQL statement: its text and its bound parameters. -/
structure Stmt where
  sql : String
  params : List (String × Value)
deriving DecidableEq, Repr

/-- A table's rows. -/
abbrev Table := List RowMap

/-- The relational store: qualified table name to rows, plus the set of
tables any statement on which raises SQLAlchemyError (the injection point
for database failures at the engine boundary). -/
structure Database where
  tables : List (String × Table)
  failing : List String
deriving DecidableEq, Repr

/-- A SQLAlchemy session: last committed store, pending store (statements
apply immediately, `commit` publishes, `rollback` reverts), and the trace
of statements sent to the engine. -/
structure Sess where
  committed : Database
  pending : Database
  trace : List Stmt
deriving DecidableEq, Repr

/-- `Session()`: a fresh session over the store. -/
def newSess (d : Database) : Sess := ⟨d, d, []⟩

/-- The Python exceptions in play: KeyError and UnboundLocalError (raised
by `update_database` and never caught), RecursionError (fuel exhaustion),
and SQLAlchemyError (caught where the source catches it). -/
inductive PyErr where
  | keyError (k : String)
  | nameError (n : String)
  | recursionError
  | dbError
deriving DecidableEq, Repr

def Database.getTable (d : Database) (t : String) : Table :=
  (lookupKV d.tables t).getD []

def Database.setTable (d : Database) (t : String) (tbl : Table) : Database :=
  { d with tables := setKV d.tables t tbl }

/-- `row.get(column)` on a SQLAlchemy mappings row: a SQL NULL surfaces as
Python None, indistinguishable from an absent key. -/
def pyGet (r : RowMap) (c : String) : Option Value :=
  match lookupKV r c with
  | some .vNull => none
  | o => o

/-- Execute `SELECT * FROM t WHERE col = :id_value` and fetch one row. -/
def execFetchStar (s : Sess) (t col : String) (v : Value) (sql : String) :
    (Except PyErr (Option RowMap)) × Sess :=
  let s2 := { s with trace := s.trace ++ [⟨sql, [("id_value", v)]⟩] }
  if t ∈ s.pending.failing then (.error .dbError, s2)
  else (.ok ((s.pending.getTable t).find? (fun r => decide (lookupKV r col = some v))), s2)

/-- Apply a SET clause to one row. -/
def applySets (r : RowMap) (sets : RowMap) : RowMap :=
  sets.foldl (fun acc p => setKV acc p.1 p.2) r

/-- Execute a parameterized `UPDATE t SET ... WHERE whereCol = :related_id`. -/
def execUpdate (s : Sess) (t : String) (sets : RowMap) (whereCol : String)
    (idv : Value) (sql : String) : (Except PyErr Unit) × Sess :=
  let s2 := { s with trace := s.trace ++ [⟨sql, sets ++ [("related_id", idv)]⟩] }
  if t ∈ s2.pending.failing then (.error .dbError, s2)
  else
    let tbl := s2.pending.getTable t
    let tbl2 := tbl.map (fun r => if lookupKV r whereCol = some idv then applySets r sets else r)
    (.ok (), { s2 with pending := s2.pending.setTable t tbl2 })

def commitS (s : Sess) : Sess := { s with committed := s.pending }

def rollbackS (s : Sess) : Sess := { s with pending := s.committed }

/-- The `fetch_query` text of `update_database` line 139. -/
def fetchStarSql (schemaName mainTable pk : String) : String :=
  "SELECT * FROM " ++ schemaName ++ "." ++ mainTable ++ " WHERE " ++ pk ++ " = :id_value"

/-- Twenty spaces: the indentation the triple-quoted UPDATE literal keeps. -/
def sp20 : String := "                    "

/-- The UPDATE text of `update_database` lines 198-202, newlines and
indentation as the triple-quoted f-string produces them. -/
def updateSql (relatedTableName : String) (keys : List String) (relatedColumn : String) : String :=
  "\n" ++ sp20 ++ "UPDATE " ++ relatedTableName
    ++ "\n" ++ sp20 ++ "SET " ++ joinSep ", " (keys.map (fun k => k ++ " = :" ++ k))
    ++ "\n" ++ sp20 ++ "WHERE " ++ relatedColumn ++ " = :related_id"
    ++ "\n" ++ sp20

/-- One staged related-table update (lines 170-174). -/
structure Upd where
  columns : RowMap
  related_id : Value
  related_column : String
deriving DecidableEq, Repr

/-- `updates_per_table`. -/
abbrev UPT := List (String × List Upd)

/-- Lines 165-166: create the per-table list when absent. -/
def ensureKey (m : UPT) (k : String) : UPT :=
  if hasKey m k then m else setKV m k []

/-- Line 170: append to the (present) per-table list. -/
def appendUpd (m : UPT) (k : String) (u : Upd) : UPT :=
  setKV m k (((lookupKV m k).getD []) ++ [u])

/-- The type of the recursive call of `update_database`. -/
abbrev Recurse := Sess → String → String → Value → RowMap → Option RowMap →
  (Except PyErr Bool) × Sess

/-- Lines 164-174: the staging step for one link branch — make sure the
related table has a list, and append the mapped columns for the local
foreign-key column when the Field Mapper produced any. -/
def stageBranch (mapped : List (String × RowMap)) (upt : UPT) (column ref : String)
    (fkv : Value) : UPT :=
  let relatedTableName := dotPart ref 0 ++ "." ++ dotPart ref 1
  let upt1 := ensureKey upt relatedTableName
  match lookupKV mapped column with
  | some cols => appendUpd upt1 relatedTableName ⟨cols, fkv, dotPart ref 2⟩
  | none => upt1

/-- The branch loop of `update_database` (lines 152-188): for every entry of
the table's relationship map, read `ref` (an unconditional dict access),
read the foreign key from the current row, skip the branch when it is
null/absent, stage any mapped columns for the local foreign-key column,
and recurse when the target table has its own relationship entry.  A
nested `.ok` result is continued past regardless of its Boolean; a nested
exception propagates. -/
def processBranches (recurse : Recurse) (R : Schema)
    (mapped : List (String × RowMap)) (result : RowMap) (updated_record : RowMap) :
    Rels → Sess → UPT → (Except PyErr UPT) × Sess
  | [], s, upt => (.ok upt, s)
  | (column, d) :: rest, s, upt =>
      match getRef d with
      | .error k => (.error (.keyError k), s)
      | .ok ref =>
        let relatedTable := dotPart ref 1
        let relatedColumn := dotPart ref 2
        let relatedTableName := dotPart ref 0 ++ "." ++ relatedTable
        match pyGet result column with
        | none => processBranches recurse R mapped result updated_record rest s upt
        | some fkv =>
          let upt2 := stageBranch mapped upt column ref fkv
          match lookupKV R relatedTableName with
          | some _ =>
            match recurse s relatedTableName (relatedTable ++ "." ++ relatedColumn)
                fkv updated_record (some result) with
            | (.ok _nested_success, s2) =>
                processBranches recurse R mapped result updated_record rest s2 upt2
            | (.error e, s2) => (.error e, s2)
          | none => processBranches recurse R mapped result updated_record rest s upt2

/-- Lines 191-212 for one related table: execute each staged update whose
column set is nonempty. -/
def execStagedList (t : String) : List Upd → Sess → (Except PyErr Unit) × Sess
  | [], s => (.ok (), s)
  | u :: us, s =>
      if u.columns.isEmpty then execStagedList t us s
      else
        match execUpdate s t u.columns u.related_column u.related_id
            (updateSql t (u.columns.map (fun p => p.1)) u.related_column) with
        | (.ok _, s2) => execStagedList t us s2
        | (.error e, s2) => (.error e, s2)

/-- Lines 191-212: execute the staged updates table by table. -/
def execStaged : UPT → Sess → (Except PyErr Unit) × Sess
  | [], s => (.ok (), s)
  | (t, us) :: rest, s =>
      match execStagedList t us s with
      | (.ok _, s2) => execStaged rest s2
      | (.error e, s2) => (.error e, s2)

/-- The body of `update_database` (lines 130-222) before the
`except SQLAlchemyError` wrapper, parameterized by the recursive call.
`fetchQuery` is `none` exactly when the Python local `fetch_query` is never
assigned (a caller supplied `parent_result`, line 138), which makes the
post-commit re-fetch of line 218 an UnboundLocalError. -/
def udBody (recurse : Recurse) (R : Schema) (s : Sess)
    (table_name id_name : String) (id_value : Value)
    (updated_record : RowMap) (parent_result : Option RowMap) :
    (Except PyErr Bool) × Sess :=
  let mapped := map_fields_to_columns updated_record (findRels R table_name)
  let schemaName := dotPart table_name 0
  let mainTable := dotPart table_name 1
  let pk := lastPart id_name
  let fetchQuery : Option String :=
    match parent_result with
    | none => some (fetchStarSql schemaName mainTable pk)
    | some _ => none
  let fetched : (Except PyErr (Option RowMap)) × Sess :=
    match parent_result with
    | none => execFetchStar s (schemaName ++ "." ++ mainTable) pk id_value
        (fetchStarSql schemaName mainTable pk)
    | some r => (.ok (some r), s)
  match fetched with
  | (.error e, s1) => (.error e, s1)
  | (.ok resOpt, s1) =>
    if (match resOpt with | none => true | some r => r.isEmpty) then (.ok false, s1)
    else
      let result := resOpt.getD []
      match processBranches recurse R mapped result updated_record (findRels R table_name) s1 [] with
      | (.error e, s2) => (.error e, s2)
      | (.ok upt, s2) =>
        match execStaged upt s2 with
        | (.error e, s3) => (.error e, s3)
        | (.ok _, s3) =>
          let s4 := commitS s3
          match fetchQuery with
          | none => (.error (.nameError "fetch_query"), s4)
          | some fq =>
            match execFetchStar s4 (schemaName ++ "." ++ mainTable) pk id_value fq with
            | (.error e, s5) => (.error e, s5)
            | (.ok _updated_result, s5) => (.ok true, s5)

/-- `update_database` (lines 130-226): the body under the function-level
`except SQLAlchemyError` (rollback and report failure); KeyError,
UnboundLocalError and RecursionError are not caught and propagate.  The
fuel argument stands for CPython's recursion limit. -/
def update_database (R : Schema) : Nat → Recurse
  | 0 => fun s _ _ _ _ _ => (.error .recursionError, s)
  | fuel + 1 => fun s table_name id_name id_value updated_record parent_result =>
      match udBody (update_database R fuel) R s table_name id_name id_value
          updated_record parent_result with
      | (.error .dbError, s2) => (.ok false, rollbackS s2)
      | (.error e, s2) => (.error e, s2)
      | (.ok b, s2) => (.ok b, s2)

/-- The inner loop of `process_message` lines 119-122: each link field's
aliased value is read by unguarded indexing (`result[alias]`, a KeyError
when absent) and serialized. -/
def addLinkFields : List (String × FieldInfo) → RowMap → RowMap → Except PyErr RowMap
  | [], _, acc => .ok acc
  | (_, fi) :: rest, result, acc =>
      match lookupKV result fi.fieldAlias with
      | none => .error (.keyError fi.fieldAlias)
      | some v => addLinkFields rest result (setKV acc fi.fieldAlias (serialize v))

/-- Lines 114-122: walk the relationship map in declaration order and build
the ordered record keyed by alias; a scalar entry is guarded by
`relationship['alias'] in result` and skipped when the raw row lacks the
alias. -/
def buildOrderedRecord : Rels → RowMap → RowMap → Except PyErr RowMap
  | [], _, acc => .ok acc
  | (_, .scalar fi) :: rest, result, acc =>
      let acc2 :=
        match lookupKV result fi.fieldAlias with
        | some v => setKV acc fi.fieldAlias (serialize v)
        | none => acc
      buildOrderedRecord rest result acc2
  | (_, .link li) :: rest, result, acc =>
      match addLinkFields li.fields result acc with
      | .error e => .error e
      | .ok acc2 => buildOrderedRecord rest result acc2

/-- What the relational engine does with the statement `construct_query`
builds: find the root row by the WHERE column, then for each entry emit the
selected expressions under their aliases — a scalar entry projects the root
column, a link entry LEFT-JOINs the referenced table on the foreign key
(one row or NULLs). -/
def joinedRow (d : Database) (rels : Rels) (root : RowMap) : RowMap :=
  rels.foldl
    (fun acc p =>
      match p.2 with
      | .scalar fi => setKV acc fi.fieldAlias ((lookupKV root p.1).getD .vNull)
      | .link li =>
          let rc := dotPart li.ref 2
          let rtn := dotPart li.ref 0 ++ "." ++ dotPart li.ref 1
          let refRow : Option RowMap :=
            match pyGet root p.1 with
            | none => none
            | some fkv => (d.getTable rtn).find? (fun r => decide (lookupKV r rc = some fkv))
          li.fields.foldl
            (fun acc2 q =>
              setKV acc2 q.2.fieldAlias
                (match refRow with
                 | none => .vNull
                 | some rr => (lookupKV rr q.1).getD .vNull))
            acc)
    []

/-- Execute the constructed root SELECT with its single bound parameter
(line 110) and fetch one row. -/
def runRootSelect (s : Sess) (R : Schema) (table id_name : String) (id_value : Value) :
    (Except PyErr (Option RowMap)) × Sess :=
  let sql := construct_query R table id_name id_value
  let s2 := { s with trace := s.trace ++ [⟨sql, [("id_value", id_value)]⟩] }
  if table ∈ s.pending.failing then (.error .dbError, s2)
  else
    let col := lastPart id_name
    match (s.pending.getTable table).find? (fun r => decide (lookupKV r col = some id_value)) with
    | none => (.ok none, s2)
    | some root => (.ok (some (joinedRow s.pending (findRels R table) root)), s2)

/-- `process_message` (lines 107-128): zero rows give `(None, "No record
found.")`, a database error gives `(None, "Database error.")`, one row is
materialized in declaration order. -/
def process_message (s : Sess) (R : Schema) (table id_name : String) (id_value : Value) :
    (Except PyErr (Option RowMap × Option String)) × Sess :=
  match runRootSelect s R table id_name id_value with
  | (.error .dbError, s2) => (.ok (none, some "Database error."), s2)
  | (.error e, s2) => (.error e, s2)
  | (.ok none, s2) => (.ok (none, some "No record found."), s2)
  | (.ok (some row), s2) =>
      match buildOrderedRecord (findRels R table) row [] with
      | .error e => (.error e, s2)
      | .ok record => (.ok (some record, none), s2)

/-- A parsed oracle (OpenAI) response body: a JSON object, a JSON array, or
some other JSON value. -/
inductive JsonVal where
  | jObj (m : RowMap)
  | jArr (xs : List Value)
  | jPrim (v : Value)
deriving DecidableEq, Repr

/-- The oracle HTTP boundary as the adapter observes it: a non-200 status, a
body that is not JSON, or a parsed JSON value. -/
inductive OracleWire where
  | httpError (code : Nat)
  | badJson
  | goodJson (j : JsonVal)
deriving DecidableEq, Repr

/-- A definite JSON rendering of a scalar, standing for `json.dumps`. -/
def jsonValStr : Value → String
  | .vNull => "null"
  | .vBool b => if b then "true" else "false"
  | .vInt n => toString n
  | .vStr str => "\"" ++ str ++ "\""
  | .vDatetime iso => "\"" ++ iso ++ "\""
  | .vFloat q => toString q.num ++ "/" ++ toString q.den
  | .vDecimal q => toString q.num ++ "/" ++ toString q.den

/-- `json.dumps(record, indent=2)` as one definite text. -/
def jsonDumps (r : RowMap) : String :=
  "\x7b " ++ joinSep ", " (r.map (fun p => "\"" ++ p.1 ++ "\": " ++ jsonValStr p.2)) ++ " \x7d"

/-- The prompt of `map_corrections_using_gpt` (lines 229-237): the current
record serialized into the instruction text, followed by the user input. -/
def oraclePrompt (record : RowMap) (user_message : String) : String :=
  "\n    The current database record is:\n    " ++ jsonDumps record
    ++ ("\n\n    The user provided the following input: '" ++ user_message
      ++ "'.\n\n    Please update the JSON record to reflect any changes based on the user's input.\n    **Return only the updated JSON record. If no changes are needed, return the original JSON record without any additional text.**\n    ")

/-- `map_corrections_using_gpt` (lines 228-268): a 200 response whose body
parses to a JSON object yields the corrections; any other parse outcome or
status is classified as a failure with the source's message. -/
def map_corrections_using_gpt (oracle : String → OracleWire) (record : RowMap)
    (user_message : String) : Option RowMap × Option String :=
  match oracle (oraclePrompt record user_message) with
  | .httpError code => (none, some ("OpenAI API request failed: " ++ toString code))
  | .badJson => (none, some "Failed to parse corrections")
  | .goodJson (.jObj m) => (some m, none)
  | .goodJson _ => (none, some "Received non-JSON object")

/-- Python `str.capitalize()`: first character uppercased, the rest
lowercased. -/
def pyCapitalize (s : String) : String :=
  match s.data with
  | [] => s
  | c :: cs => String.mk (c.toUpper :: cs.map Char.toLower)

/-- `.replace('_', ' ')`. -/
def pyUnderscoreToSpace (s : String) : String :=
  String.mk (s.data.map (fun c => if c = '_' then ' ' else c))

/-- `str(value)` inside the response f-string (floats rendered by one
definite model text). -/
def pyStr : Value → String
  | .vNull => "None"
  | .vBool b => if b then "True" else "False"
  | .vInt n => toString n
  | .vStr str => str
  | .vDatetime iso => iso
  | .vFloat q => toString q.num ++ "/" ++ toString q.den
  | .vDecimal q => toString q.num ++ "/" ++ toString q.den

/-- `generate_response` (lines 270-274). -/
def generate_response (record : RowMap) : String :=
  "I have now in my records the following: "
    ++ joinSep ". " ((record.filter (fun p => decide (p.2 ≠ Value.vNull))).map
        (fun p => pyUnderscoreToSpace (pyCapitalize p.1) ++ " is " ++ pyStr p.2))
    ++ ". If you need modifications, please state them. Otherwise, we thank you for completing your record."

/-- A Flask response: body text and HTTP status. -/
structure HttpResp where
  body : String
  status : Nat
deriving DecidableEq, Repr

/-- Python truthiness of an optional string (absent or empty is falsy). -/
def strTruthy : Option String → Bool
  | none => false
  | some s => !s.isEmpty

/-- `{**current_record, **corrections}`. -/
def mergeRecords (a b : RowMap) : RowMap :=
  b.foldl (fun acc p => setKV acc p.1 p.2) a

/-- The `/message` route handler (lines 276-322).  The root table is the
literal `"bookings.transfer_services"` of line 282.  An uncaught Python
exception is an `.error` (Flask would surface it as a 500 crash page). -/
def message (R : Schema) (d : Database) (oracle : String → OracleWire) (fuel : Nat)
    (id_name_arg id_value_arg : Option String) (user_message : String) :
    (Except PyErr HttpResp) × Sess :=
  let table_name := "bookings.transfer_services"
  let s0 := newSess d
  if !(strTruthy id_name_arg) || !(strTruthy id_value_arg) then
    (.ok ⟨"id_name and id_value are required.", 400⟩, s0)
  else
    let id_name := id_name_arg.getD ""
    let id_value := id_value_arg.getD ""
    match process_message s0 R table_name id_name (.vStr id_value) with
    | (.error e, s1) => (.error e, s1)
    | (.ok (currentRecord, err), s1) =>
      if strTruthy err then (.ok ⟨err.getD "", 500⟩, s1)
      else if (match currentRecord with | none => true | some r => r.isEmpty) then
        (.ok ⟨"No record found.", 404⟩, s1)
      else
        let rec0 := currentRecord.getD []
        match map_corrections_using_gpt oracle rec0 user_message with
        | (corrections, error) =>
          if (match corrections with | some c => !c.isEmpty | none => false) then
            let c := corrections.getD []
            match update_database R fuel s1 table_name id_name (.vStr id_value) c none with
            | (.error e, s2) => (.error e, s2)
            | (.ok true, s2) => (.ok ⟨generate_response (mergeRecords rec0 c), 200⟩, s2)
            | (.ok false, s2) => (.ok ⟨"Failed to update the record in the database.", 500⟩, s2)
          else if strTruthy error then
            (.ok ⟨"Failed to process the corrections. Please try again.", 500⟩, s1)
          else
            (.ok ⟨generate_response rec0, 200⟩, s1)

/-- The end-to-end scenario's relationship map (spec section 8): scalar
`status` aliased `status`, link `customer_id` to `bookings.customers.id`
exposing `name` as `customer_name`. -/
def e2eRels : Rels :=
  [("status", .scalar ⟨"status"⟩),
   ("customer_id", .link ⟨"bookings.customers.id", [("name", ⟨"customer_name"⟩)]⟩)]

/-- The end-to-end scenario's relationship schema. -/
def e2eSchema : Schema := [("bookings.transfer_services", e2eRels)]

/-- The end-to-end scenario's store: transfer service 1, pending, linked to
customer 5 named Ana. -/
def e2eDb : Database :=
  ⟨[("bookings.transfer_services",
      [[("id", .vInt 1), ("status", .vStr "pending"), ("customer_id", .vInt 5)]]),
    ("bookings.customers",
      [[("id", .vInt 5), ("name", .vStr "Ana")]])],
   []⟩

/-- A schema exercising the recursive entry of `update_database`: `s.a`
links to `s.b`, and `s.b` has a (link-free) relationship entry of its own,
so propagation from `s.a` recurses into `s.b` with `parent_result`
supplied. -/
def c3Schema : Schema := [("s.a", [("b_id", .link ⟨"s.b.id", []⟩)]), ("s.b", [])]

/-- The root row of `s.a` in that scenario. -/
def c3RowA : RowMap := [("id", .vInt 1), ("b_id", .vInt 5)]

/-- Store for the recursion scenario. -/
def c3Db : Database := ⟨[("s.a", [c3RowA])], []⟩

/-- Store with the end-to-end tables present but empty. -/
def c4Db : Database := ⟨[("bookings.transfer_services", []), ("bookings.customers", [])], []⟩

theorem lookupKV_setKV {α : Type} (m : List (String × α)) (k k2 : String) (v : α) :
    lookupKV (setKV m k v) k2 = if k = k2 then some v else lookupKV m k2 := by
  induction m with
  | nil => by_cases h : k = k2 <;> simp [setKV, lookupKV, h]
  | cons p rest ih =>
      obtain ⟨k3, v3⟩ := p
      by_cases h3 : k3 = k
      · subst h3
        by_cases h2 : k3 = k2 <;> simp [setKV, lookupKV, h2]
      · by_cases h2 : k3 = k2
        · subst h2
          have hk : ¬(k = k3) := fun h => h3 h.symm
          simp [setKV, lookupKV, h3, hk]
        · simp [setKV, lookupKV, h3, h2, ih]

theorem setKV_fresh {α : Type} (m : List (String × α)) (k : String) (v : α)
    (h : lookupKV m k = none) : setKV m k v = m ++ [(k, v)] := by
  induction m with
  | nil => simp [setKV]
  | cons p rest ih =>
      obtain ⟨k3, v3⟩ := p
      by_cases h3 : k3 = k
      · subst h3
        simp [lookupKV] at h
      · simp only [lookupKV, if_neg h3] at h
        simp [setKV, h3, ih h]

/-- The bucket keys a descriptor can contribute through
`map_fields_to_columns`: the alias of a scalar entry, the remote field
names of a link entry — all drawn from the static schema. -/
def descNames : Descriptor → List String
  | .scalar fi => [fi.fieldAlias]
  | .link li => li.fields.map Prod.fst

/-- All bucket keys a relationship map can contribute. -/
def schemaNames : Rels → List String
  | [] => []
  | p :: rest => descNames p.2 ++ schemaNames rest

theorem mem_schemaNames_of_mem {rels : Rels} {p : String × Descriptor} (hp : p ∈ rels)
    {x : String} (hx : x ∈ descNames p.2) : x ∈ schemaNames rels := by
  induction rels with
  | nil => cases hp
  | cons q rest ih =>
      rcases List.mem_cons.mp hp with h | h
      · subst h
        exact List.mem_append.mpr (Or.inl hx)
      · exact List.mem_append.mpr (Or.inr (ih h))

theorem lookupKV_linkFold_some (record : RowMap) (fs : List (String × FieldInfo))
    (acc : RowMap) (t : String)
    (h : (lookupKV (fs.foldl (fun b p =>
        match lookupKV record p.2.fieldAlias with
        | some v => setKV b p.1 v
        | none => b) acc) t).isSome) :
    t ∈ fs.map Prod.fst ∨ (lookupKV acc t).isSome := by
  induction fs generalizing acc with
  | nil => exact Or.inr h
  | cons p rest ih =>
      rw [List.foldl_cons] at h
      rcases ih _ h with h1 | h1
      · exact Or.inl (List.mem_cons.mpr (Or.inr h1))
      · cases hrec : lookupKV record p.2.fieldAlias with
        | none => rw [hrec] at h1; exact Or.inr h1
        | some v =>
            rw [hrec] at h1
            rw [lookupKV_setKV] at h1
            by_cases hp : p.1 = t
            · exact Or.inl (List.mem_cons.mpr (Or.inl hp.symm))
            · rw [if_neg hp] at h1; exact Or.inr h1

theorem bucketFor_keys (record : RowMap) (d : Descriptor) (k : String)
    (h : (lookupKV (bucketFor record d) k).isSome) : k ∈ descNames d := by
  cases d with
  | scalar fi =>
      simp only [bucketFor] at h
      cases hrec : lookupKV record fi.fieldAlias with
      | none => rw [hrec] at h; simp [lookupKV] at h
      | some v =>
          rw [hrec] at h
          dsimp only at h
          rw [lookupKV_setKV] at h
          by_cases hk : fi.fieldAlias = k
          · simp [descNames, hk]
          · rw [if_neg hk] at h; simp [lookupKV] at h
  | link li =>
      simp only [bucketFor] at h
      rcases lookupKV_linkFold_some record li.fields [] k h with h1 | h1
      · exact h1
      · simp [lookupKV] at h1

theorem lookupKV_mftFold_some (record : RowMap) (rels : Rels)
    (acc : List (String × RowMap)) (t : String) (b : RowMap)
    (h : lookupKV (rels.foldl (fun mapped p => setKV mapped p.1 (bucketFor record p.2)) acc) t
      = some b) :
    (∃ p, p ∈ rels ∧ p.1 = t ∧ b = bucketFor record p.2) ∨ lookupKV acc t = some b := by
  induction rels generalizing acc with
  | nil => exact Or.inr h
  | cons p rest ih =>
      rw [List.foldl_cons] at h
      rcases ih _ h with h1 | h1
      · rcases h1 with ⟨q, hq, hq1, hq2⟩
        exact Or.inl ⟨q, List.mem_cons.mpr (Or.inr hq), hq1, hq2⟩
      · rw [lookupKV_setKV] at h1
        by_cases hp : p.1 = t
        · rw [if_pos hp] at h1
          exact Or.inl ⟨p, List.mem_cons.mpr (Or.inl rfl), hp, (Option.some.inj h1).symm⟩
        · rw [if_neg hp] at h1; exact Or.inr h1

set_option maxRecDepth 16384 in
/-- C1: the claim says no identifier in the fetch or propagation SQL text
derives from request input, for all id_name/id_value.  False: the WHERE
column identifier is the last dot-segment of the request's `id_name`,
interpolated into the statement text (line 101-102), so two id_name values
produce different texts and a crafted id_name plants an arbitrary
identifier; the propagation root fetch (line 139) interpolates it the same
way, as its traced statement shows. -/
theorem c1_request_input_identifier_counterexample :
    construct_query e2eSchema "bookings.transfer_services" "pwned" (.vStr "1")
      ≠ construct_query e2eSchema "bookings.transfer_services" "id" (.vStr "1")
    ∧ construct_query e2eSchema "bookings.transfer_services" "pwned" (.vStr "1")
      = "SELECT bookings.transfer_services.status AS \"status\", customers_alias_1.name AS \"customer_name\" FROM bookings.transfer_services LEFT JOIN bookings.customers AS customers_alias_1 ON bookings.transfer_services.customer_id = customers_alias_1.id WHERE bookings.transfer_services.pwned = :id_value"
    ∧ (update_database e2eSchema 8 (newSess e2eDb) "bookings.transfer_services" "pwned"
        (.vInt 1) [] none).2.trace.head?
      = some ⟨"SELECT * FROM bookings.transfer_services WHERE pwned = :id_value",
              [("id_value", .vInt 1)]⟩ :=
  ⟨by decide, rfl, rfl⟩

/-- C1 amended: the lookup value is passed only as a bound parameter and
never affects the statement text; the SELECT list, JOIN clauses and the
Field Mapper's update-column keys come only from the static schema; but
the WHERE lookup column identifier is derived from the request's
`id_name` — the statement text depends on request input exactly through
`id_name`'s last dot-segment. -/
theorem c1_amended_identifier_sources :
    (∀ (R : Schema) (t n : String) (v1 v2 : Value),
        construct_query R t n v1 = construct_query R t n v2)
    ∧ (∀ (R : Schema) (t n1 n2 : String) (v : Value), lastPart n1 = lastPart n2 →
        construct_query R t n1 v = construct_query R t n2 v)
    ∧ (∀ (s : Sess) (R : Schema) (t n : String) (v : Value),
        (runRootSelect s R t n v).2.trace
          = s.trace ++ [⟨construct_query R t n v, [("id_value", v)]⟩])
    ∧ (∀ (record : RowMap) (rels : Rels) (t : String) (bucket : RowMap) (k : String),
        lookupKV (map_fields_to_columns record rels) t = some bucket →
        (lookupKV bucket k).isSome → k ∈ schemaNames rels) := by
  refine ⟨fun R t n v1 v2 => rfl, ?_, ?_, ?_⟩
  · intro R t n1 n2 v h
    unfold construct_query
    rw [h]
  · intro s R t n v
    unfold runRootSelect
    dsimp only
    split
    · rfl
    · split <;> rfl
  · intro record rels t bucket k hb hk
    unfold map_fields_to_columns at hb
    rcases lookupKV_mftFold_some record rels [] t bucket hb with h1 | h1
    · rcases h1 with ⟨p, hp, hp1, hp2⟩
      subst hp2
      exact mem_schemaNames_of_mem hp (bucketFor_keys record p.2 k hk)
    · simp [lookupKV] at h1

/-- Witness for the amended C1 theorem at concrete inputs. -/
theorem c1_amended_identifier_sources_witness :
    construct_query e2eSchema "bookings.transfer_services" "t.id" (.vStr "1")
      = construct_query e2eSchema "bookings.transfer_services" "x.id" (.vStr "2")
    ∧ "name" ∈ schemaNames e2eRels := by
  constructor
  · exact (c1_amended_identifier_sources.2.1 e2eSchema "bookings.transfer_services"
        "t.id" "x.id" (.vStr "1") rfl).trans
      (c1_amended_identifier_sources.1 e2eSchema "bookings.transfer_services"
        "x.id" (.vStr "1") (.vStr "2"))
  · exact c1_amended_identifier_sources.2.2.2
      [("customer_name", .vStr "X")] e2eRels "customer_id" [("name", .vStr "X")] "name"
      rfl rfl

/-- The join aliases minted over a relationship map: one per link entry,
`<ref_table>_alias_<n>`, the counter stepping on links only — the common
alias discipline of both loops of `construct_query`. -/
def mintedAliases : Rels → Nat → List String
  | [], _ => []
  | (_, .link li) :: rest, k =>
      (dotPart li.ref 1 ++ "_alias_" ++ toString k) :: mintedAliases rest (k + 1)
  | (_, .scalar _) :: rest, k => mintedAliases rest k

/-- The number of Link Descriptors in a relationship map. -/
def countLinks : Rels → Nat
  | [] => 0
  | (_, .link _) :: rest => countLinks rest + 1
  | (_, .scalar _) :: rest => countLinks rest

/-- The SELECT list as a function of an explicit join-alias supply. -/
def selectColsUsing (schemaName tname : String) : Rels → List String → List String
  | [], _ => []
  | (column, .link li) :: rest, a :: rest2 =>
      (li.fields.map (fun p => a ++ "." ++ p.1 ++ " AS \"" ++ p.2.fieldAlias ++ "\""))
        ++ selectColsUsing schemaName tname rest rest2
  | (_, .link _) :: _, [] => []
  | (column, .scalar fi) :: rest, supply =>
      (schemaName ++ "." ++ tname ++ "." ++ column ++ " AS \"" ++ fi.fieldAlias ++ "\"")
        :: selectColsUsing schemaName tname rest supply

/-- The JOIN clauses as a function of the same alias supply. -/
def joinClausesUsing (schemaName tname : String) : Rels → List String → List String
  | [], _ => []
  | (column, .link li) :: rest, a :: rest2 =>
      ("LEFT JOIN " ++ dotPart li.ref 0 ++ "." ++ dotPart li.ref 1 ++ " AS " ++ a ++ " ON "
          ++ schemaName ++ "." ++ tname ++ "." ++ column ++ " = " ++ a ++ "." ++ dotPart li.ref 2)
        :: joinClausesUsing schemaName tname rest rest2
  | (_, .link _) :: _, [] => []
  | (_, .scalar _) :: rest, supply => joinClausesUsing schemaName tname rest supply

theorem joinClausesAux_nil_of_no_links (schemaName tname : String) (rels : Rels) (k : Nat)
    (h : countLinks rels = 0) : joinClausesAux schemaName tname rels k = [] := by
  induction rels generalizing k with
  | nil => rfl
  | cons p rest ih =>
      obtain ⟨c, d⟩ := p
      cases d with
      | scalar fi =>
          simp only [countLinks] at h
          simp only [joinClausesAux]
          exact ih k h
      | link li => simp [countLinks] at h

/-- C6: one LEFT JOIN clause per Link Descriptor; the SELECT list and the
JOIN clauses draw their join aliases from the same supply
(`<ref_table>_alias_<n>`, `n` counted over links across the statement), so
the alias qualifying each exposed column equals the alias bound in that
link's JOIN clause; and a table with zero Link Descriptors yields a
JOIN-free SELECT of its scalar fields. -/
theorem c6_one_join_per_link_and_alias_agreement :
    (∀ (schemaName tname : String) (rels : Rels) (k : Nat),
        (joinClausesAux schemaName tname rels k).length = countLinks rels)
    ∧ (∀ (schemaName tname : String) (rels : Rels) (k : Nat),
        selectColsAux schemaName tname rels k
          = selectColsUsing schemaName tname rels (mintedAliases rels k))
    ∧ (∀ (schemaName tname : String) (rels : Rels) (k : Nat),
        joinClausesAux schemaName tname rels k
          = joinClausesUsing schemaName tname rels (mintedAliases rels k))
    ∧ (∀ (R : Schema) (table n : String) (v : Value),
        countLinks (findRels R table) = 0 →
        construct_query R table n v
          = "SELECT "
              ++ joinSep ", " (selectColsAux (dotPart table 0) (dotPart table 1) (findRels R table) 1)
              ++ " FROM " ++ dotPart table 0 ++ "." ++ dotPart table 1
              ++ " WHERE " ++ dotPart table 0 ++ "." ++ dotPart table 1 ++ "."
              ++ lastPart n ++ " = :id_value") := by
  refine ⟨?_, ?_, ?_, ?_⟩
  · intro schemaName tname rels
    induction rels with
    | nil => intro k; rfl
    | cons p rest ih =>
        intro k
        obtain ⟨c, d⟩ := p
        cases d with
        | scalar fi => simpa [joinClausesAux, countLinks] using ih k
        | link li => simpa [joinClausesAux, countLinks] using ih (k + 1)
  · intro schemaName tname rels
    induction rels with
    | nil => intro k; rfl
    | cons p rest ih =>
        intro k
        obtain ⟨c, d⟩ := p
        cases d with
        | scalar fi => simp [selectColsAux, mintedAliases, selectColsUsing, ih k]
        | link li => simp [selectColsAux, mintedAliases, selectColsUsing, ih (k + 1)]
  · intro schemaName tname rels
    induction rels with
    | nil => intro k; rfl
    | cons p rest ih =>
        intro k
        obtain ⟨c, d⟩ := p
        cases d with
        | scalar fi => simp [joinClausesAux, mintedAliases, joinClausesUsing, ih k]
        | link li => simp [joinClausesAux, mintedAliases, joinClausesUsing, ih (k + 1)]
  · intro R table n v h
    have hj := joinClausesAux_nil_of_no_links (dotPart table 0) (dotPart table 1)
      (findRels R table) 1 h
    unfold construct_query
    dsimp only
    rw [hj]
    rfl

/-- Witness for C6 at a concrete one-scalar no-link table. -/
theorem c6_one_join_per_link_and_alias_agreement_witness :
    construct_query [("s.t", [("x", .scalar ⟨"xa"⟩)])] "s.t" "id" (.vStr "7")
      = "SELECT s.t.x AS \"xa\" FROM s.t WHERE s.t.id = :id_value"
    ∧ (joinClausesAux "s" "t" [("x", Descriptor.scalar ⟨"xa"⟩)] 1).length
      = countLinks [("x", Descriptor.scalar ⟨"xa"⟩)] := by
  constructor
  · exact (c6_one_join_per_link_and_alias_agreement.2.2.2
      [("s.t", [("x", .scalar ⟨"xa"⟩)])] "s.t" "id" (.vStr "7") rfl).trans rfl
  · exact c6_one_join_per_link_and_alias_agreement.1 "s" "t"
      [("x", Descriptor.scalar ⟨"xa"⟩)] 1

/-- The external aliases a relationship map declares, in declaration order:
a scalar entry contributes its alias, a link entry its fields' aliases in
field order. -/
def declAliases : Rels → List String
  | [] => []
  | (_, .scalar fi) :: rest => fi.fieldAlias :: declAliases rest
  | (_, .link li) :: rest => li.fields.map (fun q => q.2.fieldAlias) ++ declAliases rest

/-- The record the materializer produces from a raw row that holds every
declared alias: the aliases in declaration order, each value serialized. -/
def expectedRecord (rels : Rels) (row : RowMap) : RowMap :=
  (declAliases rels).map (fun a => (a, serialize ((lookupKV row a).getD .vNull)))

theorem lookupKV_append {α : Type} (l1 l2 : List (String × α)) (k : String) :
    lookupKV (l1 ++ l2) k
      = match lookupKV l1 k with
        | some v => some v
        | none => lookupKV l2 k := by
  induction l1 with
  | nil => rfl
  | cons p rest ih =>
      obtain ⟨k2, v2⟩ := p
      by_cases h : k2 = k <;> simp [lookupKV, h, ih]

theorem lookupKV_eq_none {α : Type} (m : List (String × α)) (k : String) :
    lookupKV m k = none ↔ k ∉ m.map Prod.fst := by
  induction m with
  | nil => simp [lookupKV]
  | cons p rest ih =>
      obtain ⟨k2, v2⟩ := p
      by_cases h : k2 = k
      · subst h
        simp [lookupKV]
      · have h2 : ¬(k = k2) := fun hh => h hh.symm
        simp [lookupKV, h, h2, ih]

theorem addLinkFields_eq (fs : List (String × FieldInfo)) (row : RowMap) (acc : RowMap)
    (hpresent : ∀ q ∈ fs, (lookupKV row q.2.fieldAlias).isSome)
    (hfresh : ∀ q ∈ fs, lookupKV acc q.2.fieldAlias = none)
    (hnd : (fs.map (fun q => q.2.fieldAlias)).Nodup) :
    addLinkFields fs row acc
      = .ok (acc ++ fs.map (fun q =>
          (q.2.fieldAlias, serialize ((lookupKV row q.2.fieldAlias).getD .vNull)))) := by
  induction fs generalizing acc with
  | nil => simp [addLinkFields]
  | cons q rest ih =>
      obtain ⟨fname, fi⟩ := q
      have hq := hpresent (fname, fi) (List.mem_cons_self _ _)
      cases hv : lookupKV row fi.fieldAlias with
      | none => rw [hv] at hq; simp at hq
      | some v =>
          have hfreshHead : lookupKV acc fi.fieldAlias = none :=
            hfresh (fname, fi) (List.mem_cons_self _ _)
          have hni : fi.fieldAlias ∉ rest.map (fun r => r.2.fieldAlias) := by
            simp only [List.map_cons, List.nodup_cons] at hnd
            exact hnd.1
          have hnd2 : (rest.map (fun r => r.2.fieldAlias)).Nodup := by
            simp only [List.map_cons, List.nodup_cons] at hnd
            exact hnd.2
          have hpres2 : ∀ r ∈ rest, (lookupKV row r.2.fieldAlias).isSome :=
            fun r hr => hpresent r (List.mem_cons_of_mem _ hr)
          have hfresh2 : ∀ r ∈ rest,
              lookupKV (acc ++ [(fi.fieldAlias, serialize v)]) r.2.fieldAlias = none := by
            intro r hr
            rw [lookupKV_append, hfresh r (List.mem_cons_of_mem _ hr)]
            have hne : fi.fieldAlias ≠ r.2.fieldAlias := by
              intro he
              apply hni
              rw [he]
              exact List.mem_map.mpr ⟨r, hr, rfl⟩
            simp [lookupKV, hne]
          simp only [addLinkFields]
          rw [hv]
          dsimp only
          rw [setKV_fresh acc fi.fieldAlias (serialize v) hfreshHead]
          rw [ih (acc ++ [(fi.fieldAlias, serialize v)]) hpres2 hfresh2 hnd2]
          simp [hv, List.append_assoc]

theorem buildOrderedRecord_eq (rels : Rels) (row : RowMap) (acc : RowMap)
    (hpresent : ∀ a ∈ declAliases rels, (lookupKV row a).isSome)
    (hfresh : ∀ a ∈ declAliases rels, lookupKV acc a = none)
    (hnd : (declAliases rels).Nodup) :
    buildOrderedRecord rels row acc = .ok (acc ++ expectedRecord rels row) := by
  induction rels generalizing acc with
  | nil => simp [buildOrderedRecord, expectedRecord, declAliases]
  | cons p rest ih =>
      obtain ⟨c, d⟩ := p
      cases d with
      | scalar fi =>
          have hq := hpresent fi.fieldAlias
            (by simp only [declAliases]; exact List.mem_cons_self _ _)
          cases hv : lookupKV row fi.fieldAlias with
          | none => rw [hv] at hq; simp at hq
          | some v =>
              have hfreshHead : lookupKV acc fi.fieldAlias = none :=
                hfresh fi.fieldAlias
                  (by simp only [declAliases]; exact List.mem_cons_self _ _)
              have hnds : (declAliases rest).Nodup := by
                simp only [declAliases, List.nodup_cons] at hnd
                exact hnd.2
              have hni : fi.fieldAlias ∉ declAliases rest := by
                simp only [declAliases, List.nodup_cons] at hnd
                exact hnd.1
              have hpres2 : ∀ a ∈ declAliases rest, (lookupKV row a).isSome := fun a ha =>
                hpresent a
                  (by simp only [declAliases]; exact List.mem_cons_of_mem _ ha)
              have hfresh2 : ∀ a ∈ declAliases rest,
                  lookupKV (acc ++ [(fi.fieldAlias, serialize v)]) a = none := by
                intro a ha
                rw [lookupKV_append, hfresh a
                  (by simp only [declAliases]; exact List.mem_cons_of_mem _ ha)]
                have hne : fi.fieldAlias ≠ a := fun he => hni (by rw [he]; exact ha)
                simp [lookupKV, hne]
              simp only [buildOrderedRecord]
              rw [hv]
              dsimp only
              rw [setKV_fresh acc fi.fieldAlias (serialize v) hfreshHead]
              rw [ih (acc ++ [(fi.fieldAlias, serialize v)]) hpres2 hfresh2 hnds]
              simp [expectedRecord, declAliases, hv, List.append_assoc]
      | link li =>
          have hndApp : (li.fields.map (fun r => r.2.fieldAlias)).Nodup ∧
              (declAliases rest).Nodup ∧
              (li.fields.map (fun r => r.2.fieldAlias)).Disjoint (declAliases rest) := by
            simpa [declAliases, List.nodup_append] using hnd
          have hmemF : ∀ r ∈ li.fields,
              r.2.fieldAlias ∈ declAliases ((c, Descriptor.link li) :: rest) := by
            intro r hr
            simp only [declAliases]
            exact List.mem_append.mpr (Or.inl (List.mem_map.mpr ⟨r, hr, rfl⟩))
          have hmemR : ∀ a ∈ declAliases rest,
              a ∈ declAliases ((c, Descriptor.link li) :: rest) := by
            intro a ha
            simp only [declAliases]
            exact List.mem_append.mpr (Or.inr ha)
          have hfresh2 : ∀ a ∈ declAliases rest,
              lookupKV (acc ++ li.fields.map (fun r =>
                (r.2.fieldAlias, serialize ((lookupKV row r.2.fieldAlias).getD .vNull)))) a
                = none := by
            intro a ha
            rw [lookupKV_append, hfresh a (hmemR a ha)]
            have hnot : a ∉ (li.fields.map (fun r =>
                (r.2.fieldAlias, serialize ((lookupKV row r.2.fieldAlias).getD
                  Value.vNull)))).map Prod.fst := by
              simp only [List.map_map]
              intro hmem2
              have h3 : a ∈ li.fields.map (fun r => r.2.fieldAlias) := by
                simpa [Function.comp] using hmem2
              exact hndApp.2.2 h3 ha
            exact (lookupKV_eq_none _ _).mpr hnot
          simp only [buildOrderedRecord]
          rw [addLinkFields_eq li.fields row acc
            (fun r hr => hpresent _ (hmemF r hr))
            (fun r hr => hfresh _ (hmemF r hr))
            hndApp.1]
          dsimp only
          rw [ih _ (fun a ha => hpresent a (hmemR a ha)) hfresh2 hndApp.2.1]
          simp [expectedRecord, declAliases, List.map_append, List.map_map,
            Function.comp, List.append_assoc]

/-- C7: for a one-row query result holding every declared alias (the raw
row of the constructed SELECT), the materialized record is keyed by
external alias in the relationship map's declaration order with each value
serialized from the raw row; and `serialize` maps temporal values to their
ISO-8601 string, Decimal to float, keeps null as null and passes every
other value through unchanged. -/
theorem c7_materialization_order_and_serialization
    (rels : Rels) (row : RowMap)
    (hpresent : ∀ a ∈ declAliases rels, (lookupKV row a).isSome)
    (hnd : (declAliases rels).Nodup) :
    buildOrderedRecord rels row [] = .ok (expectedRecord rels row)
    ∧ (expectedRecord rels row).map Prod.fst = declAliases rels
    ∧ (∀ a v, (a, v) ∈ expectedRecord rels row →
        v = serialize ((lookupKV row a).getD .vNull))
    ∧ (∀ s, serialize (.vDatetime s) = .vStr s)
    ∧ (∀ q, serialize (.vDecimal q) = .vFloat q)
    ∧ serialize .vNull = .vNull
    ∧ (∀ s, serialize (.vStr s) = .vStr s)
    ∧ (∀ n, serialize (.vInt n) = .vInt n)
    ∧ (∀ b, serialize (.vBool b) = .vBool b)
    ∧ (∀ q, serialize (.vFloat q) = .vFloat q) := by
  refine ⟨?_, ?_, ?_, fun s => rfl, fun q => rfl, rfl, fun s => rfl, fun n => rfl,
    fun b => rfl, fun q => rfl⟩
  · simpa using buildOrderedRecord_eq rels row [] hpresent (fun a ha => rfl) hnd
  · simp only [expectedRecord, List.map_map]
    have hcomp : (Prod.fst ∘ fun a => (a, serialize ((lookupKV row a).getD Value.vNull)))
        = id := rfl
    rw [hcomp, List.map_id]
  · intro a v hmem
    simp only [expectedRecord, List.mem_map] at hmem
    obtain ⟨a2, ha2, heq⟩ := hmem
    obtain ⟨h1, h2⟩ := Prod.mk.injEq .. ▸ heq
    exact h2.symm.trans (by rw [h1])

/-- Witness for C7 on the end-to-end schema with a temporal and a decimal
raw value. -/
theorem c7_materialization_order_and_serialization_witness :
    buildOrderedRecord e2eRels
        [("status", .vDatetime "2024-01-02T03:04:05"), ("customer_name", .vDecimal 2)] []
      = .ok [("status", .vStr "2024-01-02T03:04:05"), ("customer_name", .vFloat 2)] := by
  exact ((c7_materialization_order_and_serialization e2eRels
      [("status", .vDatetime "2024-01-02T03:04:05"), ("customer_name", .vDecimal 2)]
      (by decide) (by decide)).1).trans (by rfl)

theorem lookupKV_mftFold_not_mem (record : RowMap) (rels : Rels)
    (acc : List (String × RowMap)) (t : String) (h : t ∉ rels.map Prod.fst) :
    lookupKV (rels.foldl (fun m p => setKV m p.1 (bucketFor record p.2)) acc) t
      = lookupKV acc t := by
  induction rels generalizing acc with
  | nil => rfl
  | cons p rest ih =>
      rw [List.foldl_cons]
      have h1 : t ∉ rest.map Prod.fst := fun hh =>
        h (List.mem_cons.mpr (Or.inr hh))
      rw [ih _ h1, lookupKV_setKV]
      have h2 : p.1 ≠ t := fun hh =>
        h (List.mem_cons.mpr (Or.inl hh.symm))
      rw [if_neg h2]

theorem lookupKV_mftFold_nodup (record : RowMap) (rels : Rels)
    (acc : List (String × RowMap)) (col : String) (d : Descriptor)
    (hnd : (rels.map Prod.fst).Nodup) (hmem : (col, d) ∈ rels) :
    lookupKV (rels.foldl (fun m p => setKV m p.1 (bucketFor record p.2)) acc) col
      = some (bucketFor record d) := by
  induction rels generalizing acc with
  | nil => cases hmem
  | cons p rest ih =>
      rw [List.foldl_cons]
      rcases List.mem_cons.mp hmem with he | hm
      · have he2 : p = (col, d) := he.symm
        subst he2
        have hcol : col ∉ rest.map Prod.fst := by
          simp only [List.map_cons, List.nodup_cons] at hnd
          exact hnd.1
        rw [lookupKV_mftFold_not_mem record rest _ col hcol, lookupKV_setKV, if_pos rfl]
      · have hndt : (rest.map Prod.fst).Nodup := by
          simp only [List.map_cons, List.nodup_cons] at hnd
          exact hnd.2
        exact ih _ hndt hm

theorem lookupKV_linkFold_not_mem (record : RowMap) (fs : List (String × FieldInfo))
    (acc : RowMap) (t : String) (h : t ∉ fs.map Prod.fst) :
    lookupKV (fs.foldl (fun b p =>
        match lookupKV record p.2.fieldAlias with
        | some w => setKV b p.1 w
        | none => b) acc) t
      = lookupKV acc t := by
  induction fs generalizing acc with
  | nil => rfl
  | cons p rest ih =>
      rw [List.foldl_cons]
      have h1 : t ∉ rest.map Prod.fst := fun hh =>
        h (List.mem_cons.mpr (Or.inr hh))
      rw [ih _ h1]
      have h2 : p.1 ≠ t := fun hh =>
        h (List.mem_cons.mpr (Or.inl hh.symm))
      cases hrec : lookupKV record p.2.fieldAlias with
      | none => rfl
      | some w =>
          dsimp only
          rw [lookupKV_setKV, if_neg h2]

theorem lookupKV_linkFold_nodup (record : RowMap) (fs : List (String × FieldInfo))
    (acc : RowMap) (fname : String) (fi : FieldInfo) (v : Value)
    (hnd : (fs.map Prod.fst).Nodup) (hmem : (fname, fi) ∈ fs)
    (hv : lookupKV record fi.fieldAlias = some v) :
    lookupKV (fs.foldl (fun b p =>
        match lookupKV record p.2.fieldAlias with
        | some w => setKV b p.1 w
        | none => b) acc) fname
      = some v := by
  induction fs generalizing acc with
  | nil => cases hmem
  | cons p rest ih =>
      rw [List.foldl_cons]
      rcases List.mem_cons.mp hmem with he | hm
      · have he2 : p = (fname, fi) := he.symm
        subst he2
        have hcol : fname ∉ rest.map Prod.fst := by
          simp only [List.map_cons, List.nodup_cons] at hnd
          exact hnd.1
        rw [lookupKV_linkFold_not_mem record rest _ fname hcol]
        rw [hv]
        dsimp only
        rw [lookupKV_setKV, if_pos rfl]
      · have hndt : (rest.map Prod.fst).Nodup := by
          simp only [List.map_cons, List.nodup_cons] at hnd
          exact hnd.2
        exact ih _ hndt hm

theorem alias_mem_declAliases_scalar (rels : Rels) (col : String) (fi : FieldInfo)
    (h : (col, Descriptor.scalar fi) ∈ rels) : fi.fieldAlias ∈ declAliases rels := by
  induction rels with
  | nil => cases h
  | cons p rest ih =>
      obtain ⟨c, d⟩ := p
      rcases List.mem_cons.mp h with he | hm
      · injection he with h1 h2
        subst h2
        simp only [declAliases]
        exact List.mem_cons_self _ _
      · cases d with
        | scalar fi2 =>
            simp only [declAliases]
            exact List.mem_cons_of_mem _ (ih hm)
        | link li =>
            simp only [declAliases]
            exact List.mem_append.mpr (Or.inr (ih hm))

theorem alias_mem_declAliases_link (rels : Rels) (col : String) (li : LinkInfo)
    (hmem : (col, Descriptor.link li) ∈ rels) (fname : String) (fi : FieldInfo)
    (hf : (fname, fi) ∈ li.fields) : fi.fieldAlias ∈ declAliases rels := by
  induction rels with
  | nil => cases hmem
  | cons p rest ih =>
      obtain ⟨c, d⟩ := p
      rcases List.mem_cons.mp hmem with he | hm
      · injection he with h1 h2
        subst h2
        simp only [declAliases]
        exact List.mem_append.mpr (Or.inl (List.mem_map.mpr ⟨(fname, fi), hf, rfl⟩))
      · cases d with
        | scalar fi2 =>
            simp only [declAliases]
            exact List.mem_cons_of_mem _ (ih hm)
        | link li2 =>
            simp only [declAliases]
            exact List.mem_append.mpr (Or.inr (ih hm))

theorem lookupKV_expectedRecord (rels : Rels) (row : RowMap) (a : String)
    (ha : a ∈ declAliases rels) (hnd : (declAliases rels).Nodup) :
    lookupKV (expectedRecord rels row) a
      = some (serialize ((lookupKV row a).getD .vNull)) := by
  unfold expectedRecord
  generalize declAliases rels = l at ha hnd
  induction l with
  | nil => cases ha
  | cons b rest ih =>
      by_cases hb : b = a
      · subst hb
        simp [lookupKV]
      · rcases List.mem_cons.mp ha with he | hm
        · exact absurd he.symm hb
        · simp only [List.map_cons, lookupKV, if_neg hb]
          exact ih hm (List.nodup_cons.mp hnd).2

/-- The relationship map of the C5 counterexample: one scalar column whose
local name differs from its alias. -/
def c5Rels : Rels := [("fname", .scalar ⟨"first_name"⟩)]

/-- C5: the claim says the no-change round trip stores, under each field's
local column name, the original row's column value.  False for scalar
fields: `map_fields_to_columns` stores the value under the field's alias
(line 54), so with local column `fname` aliased `first_name` the bucket
holds the value under `first_name` and a lookup under the local column
name `fname` finds nothing. -/
theorem c5_roundtrip_counterexample :
    buildOrderedRecord c5Rels [("first_name", .vStr "Ana")] []
      = .ok [("first_name", .vStr "Ana")]
    ∧ map_fields_to_columns [("first_name", .vStr "Ana")] c5Rels
      = [("fname", [("first_name", .vStr "Ana")])]
    ∧ (match lookupKV (map_fields_to_columns [("first_name", .vStr "Ana")] c5Rels) "fname" with
       | some bucket => lookupKV bucket "fname"
       | none => none)
      = none :=
  ⟨rfl, rfl, rfl⟩

/-- C5 amended: materializing a row and mapping the record back with no
user changes stores, for every scalar field, the serialized original row
value under the field's alias (not the local column name) inside the
bucket keyed by the local column name, and, for every link field, the
serialized original row value under the remote field name inside the
bucket keyed by the local foreign-key column. -/
theorem c5_amended_roundtrip (rels : Rels) (row : RowMap)
    (hkeys : (rels.map Prod.fst).Nodup)
    (hnd : (declAliases rels).Nodup)
    (hpresent : ∀ a ∈ declAliases rels, (lookupKV row a).isSome) :
    buildOrderedRecord rels row [] = .ok (expectedRecord rels row)
    ∧ (∀ col fi, (col, Descriptor.scalar fi) ∈ rels →
        lookupKV ((lookupKV (map_fields_to_columns (expectedRecord rels row) rels) col).getD [])
            fi.fieldAlias
          = some (serialize ((lookupKV row fi.fieldAlias).getD .vNull)))
    ∧ (∀ col li, (col, Descriptor.link li) ∈ rels → (li.fields.map Prod.fst).Nodup →
        ∀ fname fi, (fname, fi) ∈ li.fields →
        lookupKV ((lookupKV (map_fields_to_columns (expectedRecord rels row) rels) col).getD [])
            fname
          = some (serialize ((lookupKV row fi.fieldAlias).getD .vNull))) := by
  refine ⟨?_, ?_, ?_⟩
  · simpa using buildOrderedRecord_eq rels row [] hpresent (fun a ha => rfl) hnd
  · intro col fi hmem
    have hbucket := lookupKV_mftFold_nodup (expectedRecord rels row) rels [] col
      (Descriptor.scalar fi) hkeys hmem
    unfold map_fields_to_columns
    rw [hbucket]
    have hrec := lookupKV_expectedRecord rels row fi.fieldAlias
      (alias_mem_declAliases_scalar rels col fi hmem) hnd
    simp only [Option.getD_some, bucketFor]
    rw [hrec]
    dsimp only
    rw [lookupKV_setKV, if_pos rfl]
  · intro col li hmem hndf fname fi hf
    have hbucket := lookupKV_mftFold_nodup (expectedRecord rels row) rels [] col
      (Descriptor.link li) hkeys hmem
    unfold map_fields_to_columns
    rw [hbucket]
    have hrec := lookupKV_expectedRecord rels row fi.fieldAlias
      (alias_mem_declAliases_link rels col li hmem fname fi hf) hnd
    simp only [Option.getD_some, bucketFor]
    exact lookupKV_linkFold_nodup (expectedRecord rels row) li.fields [] fname fi
      (serialize ((lookupKV row fi.fieldAlias).getD .vNull)) hndf hf hrec

/-- Witness for the amended C5 round trip on the end-to-end schema. -/
theorem c5_amended_roundtrip_witness :
    lookupKV ((lookupKV (map_fields_to_columns
          (expectedRecord e2eRels [("status", .vStr "pending"), ("customer_name", .vStr "Ana")])
          e2eRels) "customer_id").getD []) "name"
      = some (.vStr "Ana")
    ∧ lookupKV ((lookupKV (map_fields_to_columns
          (expectedRecord e2eRels [("status", .vStr "pending"), ("customer_name", .vStr "Ana")])
          e2eRels) "status").getD []) "status"
      = some (.vStr "pending") := by
  constructor
  · exact ((c5_amended_roundtrip e2eRels
        [("status", .vStr "pending"), ("customer_name", .vStr "Ana")]
        (by decide) (by decide) (by decide)).2.2 "customer_id"
        ⟨"bookings.customers.id", [("name", ⟨"customer_name"⟩)]⟩ (by decide) (by decide)
        "name" ⟨"customer_name"⟩ (by decide)).trans (by rfl)
  · exact ((c5_amended_roundtrip e2eRels
        [("status", .vStr "pending"), ("customer_name", .vStr "Ana")]
        (by decide) (by decide) (by decide)).2.1 "status" ⟨"status"⟩ (by decide)).trans
      (by rfl)

/-- C8 scenario schema: root `s.a` has two link branches, `b_id` into `s.b`
(which has its own relationship entry, so the root call recurses into it)
and `c_id` into `s.c`; `s.b` in turn links to `s.x`. -/
def c8Schema : Schema :=
  [("s.a", [("b_id", .link ⟨"s.b.id", [("bar", ⟨"barA"⟩)]⟩),
            ("c_id", .link ⟨"s.c.id", [("name", ⟨"cname"⟩)]⟩)]),
   ("s.b", [("x_id", .link ⟨"s.x.id", [("foo", ⟨"fooA"⟩)]⟩)])]

/-- The root row of `s.a`. -/
def c8RowA : RowMap :=
  [("id", .vInt 1), ("b_id", .vInt 5), ("c_id", .vInt 9), ("x_id", .vInt 7)]

/-- Store for the C8 scenario: `s.x` is failing, so the nested call's
staged update raises SQLAlchemyError and the nested call returns False. -/
def c8Db : Database :=
  ⟨[("s.a", [c8RowA]),
    ("s.c", [[("id", .vInt 9), ("name", .vStr "Old")]]),
    ("s.x", [[("id", .vInt 7), ("foo", .vStr "OldFoo")]])],
   ["s.x"]⟩

/-- The amendment record: a change for `s.c.name` (sibling branch) and one
for `s.x.foo` (the branch whose nested call fails). -/
def c8Corr : RowMap := [("cname", .vStr "Zed"), ("fooA", .vStr "NewFoo")]

/-- The session at the moment the root call recurses into `s.b`: the root
fetch has been executed and traced. -/
def c8Sess1 : Sess :=
  ⟨c8Db, c8Db, [⟨fetchStarSql "s" "a" "id", [("id_value", .vInt 1)]⟩]⟩

/-- The nested propagate call the root call performs on branch `b_id`. -/
def c8NestedOut : (Except PyErr Bool) × Sess :=
  update_database c8Schema 7 c8Sess1 "s.b" "b.id" (.vInt 5) c8Corr (some c8RowA)

/-- C8: a recursive call that returns failure does not abort the remaining
sibling branches or the parent's own staged updates.  Generally: when the
nested call on a branch returns `(ok b, s2)` — any Boolean, in particular
False — the branch loop continues with the remaining entries from `s2`,
keeping the staged updates.  Concretely: in the two-branch scenario the
nested call on `s.b` returns False (its update hit a database error and was
rolled back), yet the root call still executes and commits its `s.c`
update, returns True, and leaves `s.x` unchanged. -/
theorem c8_nested_failure_does_not_abort_siblings :
    (∀ (recurse : Recurse) (R : Schema) (mapped : List (String × RowMap))
        (result updated_record : RowMap) (column ref : String) (d : Descriptor)
        (rest : Rels) (s s2 : Sess) (upt : UPT) (fkv : Value) (b : Bool) (rels2 : Rels),
        getRef d = .ok ref →
        pyGet result column = some fkv →
        lookupKV R (dotPart ref 0 ++ "." ++ dotPart ref 1) = some rels2 →
        recurse s (dotPart ref 0 ++ "." ++ dotPart ref 1)
            (dotPart ref 1 ++ "." ++ dotPart ref 2) fkv updated_record (some result)
          = (.ok b, s2) →
        processBranches recurse R mapped result updated_record ((column, d) :: rest) s upt
          = processBranches recurse R mapped result updated_record rest s2
              (stageBranch mapped upt column ref fkv))
    ∧ c8NestedOut.1 = .ok false
    ∧ (update_database c8Schema 8 (newSess c8Db) "s.a" "id" (.vInt 1) c8Corr none).1
      = .ok true
    ∧ lookupKV ((update_database c8Schema 8 (newSess c8Db) "s.a" "id" (.vInt 1)
        c8Corr none).2.committed.tables) "s.c"
      = some [[("id", .vInt 9), ("name", .vStr "Zed")]]
    ∧ lookupKV ((update_database c8Schema 8 (newSess c8Db) "s.a" "id" (.vInt 1)
        c8Corr none).2.committed.tables) "s.x"
      = some [[("id", .vInt 7), ("foo", .vStr "OldFoo")]] := by
  refine ⟨?_, rfl, rfl, rfl, rfl⟩
  intro recurse R mapped result updated_record column ref d rest s s2 upt fkv b rels2
    h1 h2 h3 h4
  simp only [processBranches, h1, h2, h3, h4]

/-- Witness for C8's general branch-continuation statement at the concrete
scenario (the nested call there returns False). -/
theorem c8_nested_failure_does_not_abort_siblings_witness :
    processBranches (update_database c8Schema 7) c8Schema
        (map_fields_to_columns c8Corr (findRels c8Schema "s.a")) c8RowA c8Corr
        (findRels c8Schema "s.a") c8Sess1 []
      = processBranches (update_database c8Schema 7) c8Schema
          (map_fields_to_columns c8Corr (findRels c8Schema "s.a")) c8RowA c8Corr
          [("c_id", .link ⟨"s.c.id", [("name", ⟨"cname"⟩)]⟩)] c8NestedOut.2
          (stageBranch (map_fields_to_columns c8Corr (findRels c8Schema "s.a")) []
            "b_id" "s.b.id" (.vInt 5)) := by
  exact c8_nested_failure_does_not_abort_siblings.1 (update_database c8Schema 7) c8Schema
    (map_fields_to_columns c8Corr (findRels c8Schema "s.a")) c8RowA c8Corr
    "b_id" "s.b.id" (.link ⟨"s.b.id", [("bar", ⟨"barA"⟩)]⟩)
    [("c_id", .link ⟨"s.c.id", [("name", ⟨"cname"⟩)]⟩)] c8Sess1 c8NestedOut.2 []
    (.vInt 5) false [("x_id", .link ⟨"s.x.id", [("foo", ⟨"fooA"⟩)]⟩)]
    rfl rfl rfl rfl

theorem runRootSelect_sess (s : Sess) (R : Schema) (table id_name : String)
    (id_value : Value) :
    (runRootSelect s R table id_name id_value).2
      = { s with trace := s.trace ++ [⟨construct_query R table id_name id_value,
          [("id_value", id_value)]⟩] } := by
  unfold runRootSelect
  dsimp only
  split
  · rfl
  · split <;> rfl

theorem process_message_sess (s : Sess) (R : Schema) (table id_name : String)
    (id_value : Value) :
    (process_message s R table id_name id_value).2
      = { s with trace := s.trace ++ [⟨construct_query R table id_name id_value,
          [("id_value", id_value)]⟩] } := by
  have h2 := runRootSelect_sess s R table id_name id_value
  unfold process_message
  rcases hrr : runRootSelect s R table id_name id_value with ⟨r, s2⟩
  rw [hrr] at h2
  dsimp only at h2
  rcases r with e | ro
  · cases e <;> simpa using h2
  · rcases ro with _ | row
    · simpa using h2
    · dsimp only
      split <;> simpa using h2

/-- Store for the C9 / C10 scenarios: the end-to-end tables with the root
row keyed by the string the request supplies. -/
def c9Db : Database :=
  ⟨[("bookings.transfer_services",
      [[("id", .vStr "1"), ("status", .vStr "pending"), ("customer_id", .vInt 5)]]),
    ("bookings.customers", [[("id", .vInt 5), ("name", .vStr "Ana")]])],
   []⟩

/-- C9: an oracle response whose body parses to a JSON array is classified
as an oracle error (`"Received non-JSON object"`, lines 258-262), the
handler performs no database write — its final committed store is the
initial store and its trace holds exactly the one fetch SELECT — and the
original pre-amendment record is still available in the failure path's
diagnostic context: the oracle exchange's prompt embeds its serialization,
and the classification is computed from the unchanged fetched record. -/
theorem c9_array_oracle_response (R : Schema) (d : Database) (fuel : Nat)
    (name value um : String) (xs : List Value) (record : RowMap)
    (hname : name ≠ "") (hvalue : value ≠ "")
    (hpm : (process_message (newSess d) R "bookings.transfer_services" name
        (.vStr value)).1 = .ok (some record, none))
    (hne : record ≠ []) :
    (∀ (rec2 : RowMap) (um2 : String),
        map_corrections_using_gpt (fun _ => .goodJson (.jArr xs)) rec2 um2
          = (none, some "Received non-JSON object"))
    ∧ message R d (fun _ => .goodJson (.jArr xs)) fuel (some name) (some value) um
      = (.ok ⟨"Failed to process the corrections. Please try again.", 500⟩,
         ⟨d, d, [⟨construct_query R "bookings.transfer_services" name (.vStr value),
            [("id_value", .vStr value)]⟩]⟩)
    ∧ (⟨d, d, [⟨construct_query R "bookings.transfer_services" name (.vStr value),
          [("id_value", .vStr value)]⟩]⟩ : Sess).committed = d
    ∧ (∀ (rec2 : RowMap) (um2 : String), ∃ pre post,
        oraclePrompt rec2 um2 = pre ++ jsonDumps rec2 ++ post) := by
  refine ⟨fun rec2 um2 => rfl, ?_, rfl, fun rec2 um2 =>
    ⟨"\n    The current database record is:\n    ",
     "\n\n    The user provided the following input: '" ++ um2
       ++ "'.\n\n    Please update the JSON record to reflect any changes based on the user's input.\n    **Return only the updated JSON record. If no changes are needed, return the original JSON record without any additional text.**\n    ",
     rfl⟩⟩
  unfold message
  have hn1 : strTruthy (some name) = true := by
    cases hni : name.isEmpty with
    | false => simp [strTruthy, hni]
    | true => exact absurd ((String.isEmpty_iff name).mp hni) hname
  have hn2 : strTruthy (some value) = true := by
    cases hni : value.isEmpty with
    | false => simp [strTruthy, hni]
    | true => exact absurd ((String.isEmpty_iff value).mp hni) hvalue
  rw [hn1, hn2]
  simp only [Option.getD_some]
  have hsess := process_message_sess (newSess d) R "bookings.transfer_services" name
    (.vStr value)
  rcases hp : process_message (newSess d) R "bookings.transfer_services" name
    (.vStr value) with ⟨r1, s1⟩
  rw [hp] at hpm hsess
  dsimp only at hpm hsess
  subst hpm
  subst hsess
  rcases record with _ | ⟨p, recrest⟩
  · exact absurd rfl hne
  · rfl

/-- Witness for C9 at the end-to-end store with an array oracle reply. -/
theorem c9_array_oracle_response_witness :
    message e2eSchema c9Db (fun _ => .goodJson (.jArr [])) 8 (some "id") (some "1") "hello"
      = (.ok ⟨"Failed to process the corrections. Please try again.", 500⟩,
         ⟨c9Db, c9Db, [⟨construct_query e2eSchema "bookings.transfer_services" "id"
            (.vStr "1"), [("id_value", .vStr "1")]⟩]⟩) := by
  exact (c9_array_oracle_response e2eSchema c9Db 8 "id" "1" "hello" []
    [("status", .vStr "pending"), ("customer_name", .vStr "Ana")]
    (by decide) (by decide) rfl (by decide)).2.1

theorem execFetchStar_trace (s : Sess) (t col : String) (v : Value) (sql : String) :
    (execFetchStar s t col v sql).2.trace = s.trace ++ [⟨sql, [("id_value", v)]⟩] := by
  unfold execFetchStar
  dsimp only
  split <;> rfl

theorem execUpdate_trace (s : Sess) (t : String) (sets : RowMap) (whereCol : String)
    (idv : Value) (sql : String) :
    (execUpdate s t sets whereCol idv sql).2.trace
      = s.trace ++ [⟨sql, sets ++ [("related_id", idv)]⟩] := by
  unfold execUpdate
  dsimp only
  split <;> rfl

theorem execStagedList_trace_mono (t : String) (us : List Upd) (s : Sess) :
    s.trace <+: (execStagedList t us s).2.trace := by
  induction us generalizing s with
  | nil => exact List.prefix_refl _
  | cons u rest ih =>
      unfold execStagedList
      split
      · exact ih s
      · rcases hu : execUpdate s t u.columns u.related_column u.related_id
            (updateSql t (u.columns.map (fun p => p.1)) u.related_column) with ⟨r, s2⟩
        have htr : s.trace <+: s2.trace := by
          have h := execUpdate_trace s t u.columns u.related_column u.related_id
            (updateSql t (u.columns.map (fun p => p.1)) u.related_column)
          rw [hu] at h
          exact ⟨_, h.symm⟩
        rw [hu]
        cases r with
        | ok _ => exact htr.trans (ih s2)
        | error e => exact htr

theorem execStaged_trace_mono (upt : UPT) (s : Sess) :
    s.trace <+: (execStaged upt s).2.trace := by
  induction upt generalizing s with
  | nil => exact List.prefix_refl _
  | cons p rest ih =>
      obtain ⟨t, us⟩ := p
      unfold execStaged
      rcases hl : execStagedList t us s with ⟨r, s2⟩
      have h1 : s.trace <+: s2.trace := by
        have h := execStagedList_trace_mono t us s
        rw [hl] at h
        exact h
      cases r with
      | ok _ => exact h1.trans (ih s2)
      | error e => exact h1

theorem processBranches_trace_mono (recurse : Recurse)
    (hrec : ∀ (s : Sess) (a b : String) (c : Value) (d2 : RowMap) (e : Option RowMap),
      s.trace <+: (recurse s a b c d2 e).2.trace)
    (R : Schema) (mapped : List (String × RowMap)) (result updated_record : RowMap)
    (rels : Rels) (s : Sess) (upt : UPT) :
    s.trace <+: (processBranches recurse R mapped result updated_record rels s upt).2.trace := by
  induction rels generalizing s upt with
  | nil => exact List.prefix_refl _
  | cons p rest ih =>
      obtain ⟨column, d⟩ := p
      unfold processBranches
      cases hg : getRef d with
      | error k => exact List.prefix_refl _
      | ok ref =>
          dsimp only
          cases hfk : pyGet result column with
          | none => exact ih s upt
          | some fkv =>
              dsimp only
              cases hR : lookupKV R (dotPart ref 0 ++ "." ++ dotPart ref 1) with
              | none => exact ih s _
              | some rels2 =>
                  dsimp only
                  rcases hr : recurse s (dotPart ref 0 ++ "." ++ dotPart ref 1)
                      (dotPart ref 1 ++ "." ++ dotPart ref 2) fkv updated_record
                      (some result) with ⟨rr, s2⟩
                  have h1 : s.trace <+: s2.trace := by
                    have h := hrec s (dotPart ref 0 ++ "." ++ dotPart ref 1)
                      (dotPart ref 1 ++ "." ++ dotPart ref 2) fkv updated_record (some result)
                    rw [hr] at h
                    exact h
                  cases rr with
                  | ok b2 => exact h1.trans (ih s2 _)
                  | error e => exact h1

theorem udBody_root_fetch_traced (recurse : Recurse)
    (hrec : ∀ (s : Sess) (a b : String) (c : Value) (d2 : RowMap) (e : Option RowMap),
      s.trace <+: (recurse s a b c d2 e).2.trace)
    (R : Schema) (s : Sess) (tn n : String) (v : Value) (u : RowMap) :
    (s.trace ++ [⟨fetchStarSql (dotPart tn 0) (dotPart tn 1) (lastPart n),
        [("id_value", v)]⟩])
      <+: (udBody recurse R s tn n v u none).2.trace := by
  unfold udBody
  dsimp only
  rcases hf : execFetchStar s (dotPart tn 0 ++ "." ++ dotPart tn 1) (lastPart n) v
      (fetchStarSql (dotPart tn 0) (dotPart tn 1) (lastPart n)) with ⟨rf, s1⟩
  have h1 : s1.trace = s.trace ++ [⟨fetchStarSql (dotPart tn 0) (dotPart tn 1) (lastPart n),
      [("id_value", v)]⟩] := by
    have h := execFetchStar_trace s (dotPart tn 0 ++ "." ++ dotPart tn 1) (lastPart n) v
      (fetchStarSql (dotPart tn 0) (dotPart tn 1) (lastPart n))
    rw [hf] at h
    exact h
  rw [← h1]
  cases rf with
  | error e => exact List.prefix_refl _
  | ok resOpt =>
      dsimp only
      split
      · exact List.prefix_refl _
      · rcases hb : processBranches recurse R
            (map_fields_to_columns u (findRels R tn)) (resOpt.getD []) u
            (findRels R tn) s1 [] with ⟨rb, s2⟩
        have h2 : s1.trace <+: s2.trace := by
          have h := processBranches_trace_mono recurse hrec R
            (map_fields_to_columns u (findRels R tn)) (resOpt.getD []) u
            (findRels R tn) s1 []
          rw [hb] at h
          exact h
        cases rb with
        | error e => exact h2
        | ok upt =>
            dsimp only
            rcases hx : execStaged upt s2 with ⟨rx, s3⟩
            have h3 : s2.trace <+: s3.trace := by
              have h := execStaged_trace_mono upt s2
              rw [hx] at h
              exact h
            cases rx with
            | error e => exact h2.trans h3
            | ok _ =>
                dsimp only
                rcases hf2 : execFetchStar (commitS s3) (dotPart tn 0 ++ "." ++ dotPart tn 1)
                    (lastPart n) v (fetchStarSql (dotPart tn 0) (dotPart tn 1) (lastPart n))
                  with ⟨rf2, s5⟩
                have h4 : s3.trace <+: s5.trace := by
                  have h := execFetchStar_trace (commitS s3)
                    (dotPart tn 0 ++ "." ++ dotPart tn 1) (lastPart n) v
                    (fetchStarSql (dotPart tn 0) (dotPart tn 1) (lastPart n))
                  rw [hf2] at h
                  exact ⟨_, h.symm⟩
                cases rf2 with
                | error e => exact (h2.trans h3).trans h4
                | ok _ => exact (h2.trans h3).trans h4

theorem udBody_trace_mono (recurse : Recurse)
    (hrec : ∀ (s : Sess) (a b : String) (c : Value) (d2 : RowMap) (e : Option RowMap),
      s.trace <+: (recurse s a b c d2 e).2.trace)
    (R : Schema) (s : Sess) (tn n : String) (v : Value) (u : RowMap)
    (pr : Option RowMap) :
    s.trace <+: (udBody recurse R s tn n v u pr).2.trace := by
  cases pr with
  | none =>
      exact (List.prefix_append s.trace _).trans
        (udBody_root_fetch_traced recurse hrec R s tn n v u)
  | some r0 =>
      unfold udBody
      dsimp only
      split
      · exact List.prefix_refl _
      · rcases hb : processBranches recurse R
            (map_fields_to_columns u (findRels R tn)) ((some r0).getD []) u
            (findRels R tn) s [] with ⟨rb, s2⟩
        have h2 : s.trace <+: s2.trace := by
          have h := processBranches_trace_mono recurse hrec R
            (map_fields_to_columns u (findRels R tn)) ((some r0).getD []) u
            (findRels R tn) s []
          rw [hb] at h
          exact h
        cases rb with
        | error e => exact h2
        | ok upt =>
            dsimp only
            rcases hx : execStaged upt s2 with ⟨rx, s3⟩
            have h3 : s2.trace <+: s3.trace := by
              have h := execStaged_trace_mono upt s2
              rw [hx] at h
              exact h
            cases rx with
            | error e => exact h2.trans h3
            | ok _ => exact h2.trans h3

theorem update_database_trace_mono (R : Schema) (fuel : Nat) :
    ∀ (s : Sess) (a b : String) (c : Value) (d2 : RowMap) (e : Option RowMap),
      s.trace <+: (update_database R fuel s a b c d2 e).2.trace := by
  induction fuel with
  | zero => intro s a b c d2 e; exact List.prefix_refl _
  | succ fuel ih =>
      intro s a b c d2 e
      unfold update_database
      rcases hb : udBody (update_database R fuel) R s a b c d2 e with ⟨r, s2⟩
      have h1 : s.trace <+: s2.trace := by
        have h := udBody_trace_mono (update_database R fuel) ih R s a b c d2 e
        rw [hb] at h
        exact h
      rcases r with e2 | b2
      · cases e2 <;> exact h1
      · exact h1

theorem update_database_root_fetch_traced (R : Schema) (fuel : Nat) (s : Sess)
    (tn n : String) (v : Value) (u : RowMap) :
    (s.trace ++ [⟨fetchStarSql (dotPart tn 0) (dotPart tn 1) (lastPart n),
        [("id_value", v)]⟩])
      <+: (update_database R (fuel + 1) s tn n v u none).2.trace := by
  unfold update_database
  rcases hb : udBody (update_database R fuel) R s tn n v u none with ⟨r, s2⟩
  have h1 : (s.trace ++ [⟨fetchStarSql (dotPart tn 0) (dotPart tn 1) (lastPart n),
      [("id_value", v)]⟩]) <+: s2.trace := by
    have h := udBody_root_fetch_traced (update_database R fuel)
      (update_database_trace_mono R fuel) R s tn n v u
    rw [hb] at h
    exact h
  rcases r with e2 | b2
  · cases e2 <;> exact h1
  · exact h1

/-- C10: for every request, the fetch executed by the handler is the SELECT
`construct_query` builds for the fixed root table
`bookings.transfer_services` of line 282 — it is the first traced
statement whatever id_name/id_value/message/oracle are — and whenever the
oracle yields corrections, the propagation's root fetch, the second traced
statement, is the `SELECT *` on that same fixed table: no request input
selects a different root table. -/
theorem c10_root_table_fixed (R : Schema) (d : Database) (oracle : String → OracleWire)
    (fuel : Nat) (name value um : String)
    (hname : name ≠ "") (hvalue : value ≠ "") :
    ((message R d oracle fuel (some name) (some value) um).2).trace.head?
      = some ⟨construct_query R "bookings.transfer_services" name (.vStr value),
          [("id_value", .vStr value)]⟩
    ∧ (∀ (record corr : RowMap) (s1 : Sess) (err : Option String),
        process_message (newSess d) R "bookings.transfer_services" name (.vStr value)
          = (.ok (some record, none), s1) →
        record ≠ [] →
        map_corrections_using_gpt oracle record um = (some corr, err) →
        corr ≠ [] →
        ((message R d oracle (fuel + 1) (some name) (some value) um).2).trace.get? 1
          = some ⟨fetchStarSql "bookings" "transfer_services" (lastPart name),
              [("id_value", .vStr value)]⟩) := by
  have hn1 : strTruthy (some name) = true := by
    cases hni : name.isEmpty with
    | false => simp [strTruthy, hni]
    | true => exact absurd ((String.isEmpty_iff name).mp hni) hname
  have hn2 : strTruthy (some value) = true := by
    cases hni : value.isEmpty with
    | false => simp [strTruthy, hni]
    | true => exact absurd ((String.isEmpty_iff value).mp hni) hvalue
  constructor
  · unfold message
    rw [hn1, hn2]
    simp only [Bool.not_true, Bool.or_self]
    rw [if_neg Bool.false_ne_true]
    simp only [Option.getD_some]
    have hsess := process_message_sess (newSess d) R "bookings.transfer_services" name
      (.vStr value)
    rcases hp : process_message (newSess d) R "bookings.transfer_services" name
      (.vStr value) with ⟨r1, s1⟩
    rw [hp] at hsess
    dsimp only at hsess
    have htr1 : s1.trace
        = [⟨construct_query R "bookings.transfer_services" name (.vStr value),
            [("id_value", .vStr value)]⟩] := by
      rw [hsess]
      rfl
    rcases r1 with e | ⟨ro, err⟩
    · simp [htr1]
    · cases herr : strTruthy err with
      | true => simp [herr, htr1]
      | false =>
          cases ro with
          | none => simp [herr, htr1]
          | some r =>
              cases hre : r.isEmpty with
              | true => simp [herr, hre, htr1]
              | false =>
                  rcases hc : map_corrections_using_gpt oracle r um with ⟨copt, erro⟩
                  cases copt with
                  | none => simp [herr, hre, hc, apply_ite, htr1]
                  | some c =>
                      cases hce : c.isEmpty with
                      | true => simp [herr, hre, hc, hce, apply_ite, htr1]
                      | false =>
                          rcases hu : update_database R fuel s1
                              "bookings.transfer_services" name (.vStr value) c none
                            with ⟨ru, s2⟩
                          have hpre : s1.trace <+: s2.trace := by
                            have h := update_database_trace_mono R fuel s1
                              "bookings.transfer_services" name (.vStr value) c none
                            rw [hu] at h
                            exact h
                          obtain ⟨t, ht⟩ := hpre
                          rcases ru with e2 | b2
                          · simp [herr, hre, hc, hce, hu, ← ht, htr1]
                          · cases b2 <;> simp [herr, hre, hc, hce, hu, ← ht, htr1]
  · intro record corr s1 err hpm hrecne hmcg hcorr
    unfold message
    rw [hn1, hn2]
    simp only [Bool.not_true, Bool.or_self]
    rw [if_neg Bool.false_ne_true]
    simp only [Option.getD_some]
    have hsess := process_message_sess (newSess d) R "bookings.transfer_services" name
      (.vStr value)
    rw [hpm] at hsess
    dsimp only at hsess
    have htr1 : s1.trace
        = [⟨construct_query R "bookings.transfer_services" name (.vStr value),
            [("id_value", .vStr value)]⟩] := by
      rw [hsess]
      rfl
    rw [hpm]
    rcases record with _ | ⟨p, prest⟩
    · exact absurd rfl hrecne
    rcases corr with _ | ⟨q, qrest⟩
    · exact absurd rfl hcorr
    rcases hu : update_database R (fuel + 1) s1 "bookings.transfer_services" name
        (.vStr value) (q :: qrest) none with ⟨ru, s2⟩
    have hpre : (s1.trace ++ [⟨fetchStarSql (dotPart "bookings.transfer_services" 0)
        (dotPart "bookings.transfer_services" 1) (lastPart name),
        [("id_value", .vStr value)]⟩]) <+: s2.trace := by
      have h := update_database_root_fetch_traced R fuel s1 "bookings.transfer_services"
        name (.vStr value) (q :: qrest)
      rw [hu] at h
      exact h
    obtain ⟨t, ht⟩ := hpre
    have hdp : fetchStarSql (dotPart "bookings.transfer_services" 0)
        (dotPart "bookings.transfer_services" 1) (lastPart name)
        = fetchStarSql "bookings" "transfer_services" (lastPart name) := rfl
    rw [hdp] at ht
    rcases ru with e2 | b2
    · simp [strTruthy, hmcg, hu, ← ht, htr1]
    · cases b2 <;> simp [strTruthy, hmcg, hu, ← ht, htr1]

/-- Witness for C10 on the end-to-end store, with an oracle that returns a
dict of corrections for the second conjunct. -/
theorem c10_root_table_fixed_witness :
    ((message e2eSchema c9Db (fun _ => .goodJson (.jObj [("status", .vStr "done")])) 8
        (some "id") (some "1") "hi").2).trace.head?
      = some ⟨construct_query e2eSchema "bookings.transfer_services" "id" (.vStr "1"),
          [("id_value", .vStr "1")]⟩
    ∧ ((message e2eSchema c9Db (fun _ => .goodJson (.jObj [("status", .vStr "done")])) (7 + 1)
        (some "id") (some "1") "hi").2).trace.get? 1
      = some ⟨fetchStarSql "bookings" "transfer_services" (lastPart "id"),
          [("id_value", .vStr "1")]⟩ := by
  constructor
  · exact (c10_root_table_fixed e2eSchema c9Db
      (fun _ => .goodJson (.jObj [("status", .vStr "done")])) 8 "id" "1" "hi"
      (by decide) (by decide)).1
  · exact (c10_root_table_fixed e2eSchema c9Db
      (fun _ => .goodJson (.jObj [("status", .vStr "done")])) 7 "id" "1" "hi"
      (by decide) (by decide)).2
      [("status", .vStr "pending"), ("customer_name", .vStr "Ana")]
      [("status", .vStr "done")]
      ⟨c9Db, c9Db, [⟨construct_query e2eSchema "bookings.transfer_services" "id" (.vStr "1"),
        [("id_value", .vStr "1")]⟩]⟩ none
      rfl (by decide) rfl (by decide)

/-- C2: the claim says a propagate call traverses only the Link Descriptors
of the current table, succeeding on schemas with Scalar Field Descriptors,
and in the end-to-end scenario updates `bookings.customers.name` and
returns success.  The code instead reads `ref_table_info['ref']`
unconditionally (line 153), so on the end-to-end schema — scalar `status`
plus link `customer_id` — `update_database` raises KeyError('ref') at the
scalar entry, commits nothing, and never returns. -/
theorem c2_propagate_keyerror_on_scalar_entry :
    (update_database e2eSchema 8 (newSess e2eDb) "bookings.transfer_services" "id"
        (.vInt 1) [("customer_name", .vStr "Ana Lopez")] none).1
      = .error (.keyError "ref")
    ∧ ((update_database e2eSchema 8 (newSess e2eDb) "bookings.transfer_services" "id"
        (.vInt 1) [("customer_name", .vStr "Ana Lopez")] none).2).committed = e2eDb
    ∧ getRef (.scalar ⟨"status"⟩) = .error "ref" :=
  ⟨rfl, rfl, rfl⟩

/-- C3: the claim says the post-commit re-fetch is purely diagnostic, so a
call whose staged updates all commit returns true, including recursive
calls entered with `parent_result`.  But `fetch_query` is assigned only on
the `parent_result is None` path (line 139), so every recursive call that
reaches the line-218 re-fetch raises UnboundLocalError after its commit —
and the exception propagates through the root call too. -/
theorem c3_post_commit_refetch_crashes_recursive_calls :
    (update_database c3Schema 5 (newSess c3Db) "s.b" "b.id" (.vInt 5) []
        (some c3RowA)).1
      = .error (.nameError "fetch_query")
    ∧ (update_database c3Schema 8 (newSess c3Db) "s.a" "id" (.vInt 1) [] none).1
      = .error (.nameError "fetch_query") :=
  ⟨rfl, rfl⟩

/-- C4: the claim's first half holds — a zero-row fetch yields the distinct
not-found outcome `(None, "No record found.")`, not the database-error
outcome and not a default record — but the endpoint reports it through the
`if error` branch as HTTP 500 (line 292), never reaching the 404 branch of
line 295, so the "not found" signal is surfaced as the error signal. -/
theorem c4_not_found_reported_as_error_signal :
    (process_message (newSess c4Db) e2eSchema "bookings.transfer_services" "id"
        (.vStr "999999")).1
      = .ok (none, some "No record found.")
    ∧ ("No record found." : String) ≠ "Database error."
    ∧ (message e2eSchema c4Db (fun _ => .badJson) 8 (some "id") (some "999999") "hi").1
      = .ok ⟨"No record found.", 500⟩
    ∧ (500 : Nat) ≠ 404 :=
  ⟨rfl, by decide, rfl, by decide⟩

end NlpPsql
